import Mathlib

/-
Shallow embedding of the voice_chat_be repository's real-time dialog core:
 * src/turn_taking.py      — frame VAD and the TurnTakingEngine state machine
 * src/confidence_router.py — ASR confidence routing
 * src/conversation_engine.py — the per-session conversation state machine
 * src/app.py              — the orchestrator's barge-in logic

PCM byte strings are modelled as `List ℕ` (each entry a byte, 0–255).
Machine floats of the source appear only as the coarse probability grid
{0, 0.3, 0.5, 1.0} and millisecond thresholds, all exactly representable,
so rationals (`ℚ`) model them without rounding error.
-/

namespace VoiceChat

/-! ### src/turn_taking.py — module constants -/

def SAMPLE_RATE : ℕ := 16000

def FRAME_MS : ℕ := 20

/-- `FRAME_BYTES = int(SAMPLE_RATE * FRAME_MS / 1000) * 2`, i.e. 640. -/
def FRAME_BYTES : ℕ := (SAMPLE_RATE * FRAME_MS / 1000) * 2

def SILENCE_GRACE_MS : ℚ := 1000

def CONFIRMATION_WINDOW_MS : ℚ := 400

def MIN_SPEECH_MS : ℚ := 300

def LONG_SILENCE_NUDGE_MS : ℚ := 1500

def INCOMPLETE_WAIT_MS : ℚ := 300

def COMFORT_WAIT_MS : ℚ := 1500

def CHUNK_MS : ℚ := 200

/-! ### src/turn_taking.py — vad_probability -/

/-- `struct.unpack_from("<h", ...)`: a little-endian signed 16-bit sample from
two bytes. -/
def toSigned16 (x : ℕ) : ℤ := if x < 32768 then (x : ℤ) else (x : ℤ) - 65536

/-- The sample decode loop `for i in range(0, len(pcm_bytes) - 1, 2)`:
consecutive byte pairs, a trailing odd byte dropped. -/
def decodeSamples : List ℕ → List ℤ
  | b0 :: b1 :: rest => toSigned16 (b0 + 256 * b1) :: decodeSamples rest
  | _ => []

/-- `total`, the running sum of `abs(s)` over the decoded samples. -/
def sumAbs (l : List ℤ) : ℤ := l.foldl (fun t s => t + |s|) 0

/-- `vad_probability(pcm_bytes)`: the energy-based probability of
src/turn_taking.py. The source guards `if not pcm_bytes or len(pcm_bytes) < 2`
then computes `avg = total/count/32768.0` and maps it through the thresholds
0.03 / 0.015 / 0.005 to 1.0 / 0.5 / 0.3 / 0.0. This energy computation is the
path taken for chunks smaller than one frame and, identically, whenever the
external `webrtcvad` library is unavailable; the library path (an external
dependency, not part of the repository) returns values from the same grid
{0, 0.3, 0.5, 1.0}. -/
def vad_probability (pcm : List ℕ) : ℚ :=
  if pcm.length < 2 then 0
  else
    let samples := decodeSamples pcm
    if samples.length = 0 then 0
    else
      let avg : ℚ := (sumAbs samples : ℚ) / (samples.length : ℚ) / 32768
      if avg > 3/100 then 1
      else if avg > 3/200 then 1/2
      else if avg > 1/200 then 3/10
      else 0

/-- `has_voice_uncertain(pcm_bytes)`: `prob ≥ 0.1 → True`,
`prob < 0.05 → False`, otherwise `None`. -/
def has_voice_uncertain (pcm : List ℕ) : Option Bool :=
  let prob := vad_probability pcm
  if prob ≥ 1/10 then some true
  else if prob < 1/20 then some false
  else none

/-- `vad_probability` only takes values on the coarse grid {0, 0.3, 0.5, 1}. -/
theorem vad_probability_mem_grid (pcm : List ℕ) :
    vad_probability pcm = 0 ∨ vad_probability pcm = 3/10 ∨
    vad_probability pcm = 1/2 ∨ vad_probability pcm = 1 := by
  unfold vad_probability
  dsimp only
  split_ifs <;> simp

/-- On the grid {0, 0.3, 0.5, 1} the uncertain band [0.05, 0.1) is empty, so
`has_voice_uncertain` always classifies: `some true` iff probability ≥ 0.1,
`some false` otherwise. -/
theorem has_voice_uncertain_eq (pcm : List ℕ) :
    has_voice_uncertain pcm =
      some (decide ((1:ℚ)/10 ≤ vad_probability pcm)) := by
  unfold has_voice_uncertain
  rcases vad_probability_mem_grid pcm with h | h | h | h <;>
    rw [h] <;> norm_num

/-! ### src/turn_taking.py — events, states, engine -/

inductive TurnEventType where
  | TURN_END
  | CONTINUATION_CUE
  | NUDGE
  | COMFORT
  deriving DecidableEq, Repr

structure TurnEvent where
  type : TurnEventType
  buffer : Option (List ℕ) := none
  deriving DecidableEq, Repr

inductive TurnState where
  | IDLE
  | LISTENING
  | CANDIDATE_END
  | WAITING_INCOMPLETE
  deriving DecidableEq, Repr

/-- Python's `round` (banker's rounding, half to even) on an exact rational. -/
def pyRound (q : ℚ) : ℤ :=
  if q - q.floor < 1/2 then q.floor
  else if q - q.floor > 1/2 then q.floor + 1
  else if q.floor % 2 = 0 then q.floor else q.floor + 1

/-- `max(1, int(round(ms / chunk_ms)))`, the chunk-count form of a
millisecond threshold. -/
def chunksOf (ms chunk_ms : ℚ) : ℕ := (max 1 (pyRound (ms / chunk_ms))).toNat

/-- The optional per-session `config` dict of `TurnTakingEngine.__init__`;
an absent key falls back to the module constant. -/
structure TurnConfig where
  candidate_end_ms : ℚ := SILENCE_GRACE_MS
  final_end_ms : ℚ := CONFIRMATION_WINDOW_MS
  min_speech_ms : ℚ := MIN_SPEECH_MS
  nudge_ms : ℚ := LONG_SILENCE_NUDGE_MS
  incomplete_wait_ms : ℚ := INCOMPLETE_WAIT_MS
  comfort_wait_ms : ℚ := COMFORT_WAIT_MS

structure TurnTakingEngine where
  chunk_ms : ℚ
  state : TurnState
  buffer : List ℕ
  silence_chunks : ℕ
  speech_chunks : ℕ
  idle_silence_chunks : ℕ
  consecutive_speech_frames : ℕ
  silence_grace_chunks : ℕ
  confirmation_chunks : ℕ
  min_speech_chunks : ℕ
  nudge_chunks : ℕ
  incomplete_wait_chunks : ℕ
  comfort_wait_chunks : ℕ
  deriving DecidableEq, Repr

/-- `TurnTakingEngine.__init__(chunk_ms, config)`. -/
def mkEngine (chunk_ms : ℚ := CHUNK_MS) (config : TurnConfig := {}) :
    TurnTakingEngine where
  chunk_ms := chunk_ms
  state := TurnState.IDLE
  buffer := []
  silence_chunks := 0
  speech_chunks := 0
  idle_silence_chunks := 0
  consecutive_speech_frames := 0
  silence_grace_chunks := chunksOf config.candidate_end_ms chunk_ms
  confirmation_chunks := chunksOf config.final_end_ms chunk_ms
  min_speech_chunks := chunksOf config.min_speech_ms chunk_ms
  nudge_chunks := chunksOf config.nudge_ms chunk_ms
  incomplete_wait_chunks := chunksOf config.incomplete_wait_ms chunk_ms
  comfort_wait_chunks := chunksOf config.comfort_wait_ms chunk_ms

/-- `TurnTakingEngine._reset()`. -/
def reset (e : TurnTakingEngine) : TurnTakingEngine :=
  { e with
    state := TurnState.IDLE
    buffer := []
    speech_chunks := 0
    silence_chunks := 0
    idle_silence_chunks := 0
    consecutive_speech_frames := 0 }

/-- `TurnTakingEngine.finalize_turn()`. -/
def finalize_turn (e : TurnTakingEngine) : TurnTakingEngine := reset e

/-- `TurnTakingEngine.turn_end_incomplete()`. -/
def turn_end_incomplete (e : TurnTakingEngine) : TurnTakingEngine :=
  { e with state := TurnState.WAITING_INCOMPLETE, silence_chunks := 0 }

/-- `TurnTakingEngine.process_chunk(pcm_bytes)`: the mutated engine paired
with the returned event (`None` as `none`). -/
def process_chunk (e : TurnTakingEngine) (pcm : List ℕ) :
    TurnTakingEngine × Option TurnEvent :=
  if pcm = [] then (e, none)
  else if pcm.length < FRAME_BYTES then
    if e.state = TurnState.LISTENING ∨ e.state = TurnState.CANDIDATE_END then
      ({ e with buffer := e.buffer ++ pcm }, none)
    else (e, none)
  else
    let vad_result := has_voice_uncertain pcm
    let vad_prob := vad_probability pcm
    match vad_result with
    | none =>
      if e.state = TurnState.LISTENING ∨ e.state = TurnState.CANDIDATE_END then
        ({ e with buffer := e.buffer ++ pcm }, none)
      else if e.state = TurnState.IDLE ∧ vad_prob ≥ 1/10 then
        ({ e with
            state := TurnState.LISTENING
            buffer := pcm
            speech_chunks := 1
            silence_chunks := 0
            idle_silence_chunks := 0 }, none)
      else (e, none)
    | some voice =>
      match e.state with
      | TurnState.IDLE =>
        if voice then
          ({ e with
              state := TurnState.LISTENING
              buffer := pcm
              speech_chunks := 1
              silence_chunks := 0
              idle_silence_chunks := 0 }, none)
        else
          if e.idle_silence_chunks + 1 ≥ e.nudge_chunks then
            ({ e with idle_silence_chunks := 0 },
             some { type := TurnEventType.NUDGE })
          else
            ({ e with idle_silence_chunks := e.idle_silence_chunks + 1 }, none)
      | TurnState.LISTENING =>
        if voice then
          ({ e with
              buffer := e.buffer ++ pcm
              speech_chunks := e.speech_chunks + 1
              silence_chunks := 0 }, none)
        else
          if e.silence_chunks + 1 ≥ e.silence_grace_chunks then
            if e.speech_chunks ≥ e.min_speech_chunks then
              ({ e with
                  buffer := e.buffer ++ pcm
                  state := TurnState.CANDIDATE_END
                  silence_chunks := 0 }, none)
            else
              ({ e with
                  state := TurnState.IDLE
                  buffer := []
                  speech_chunks := 0
                  silence_chunks := 0 }, none)
          else
            ({ e with
                buffer := e.buffer ++ pcm
                silence_chunks := e.silence_chunks + 1 }, none)
      | TurnState.CANDIDATE_END =>
        if voice then
          ({ e with
              state := TurnState.LISTENING
              buffer := e.buffer ++ pcm
              speech_chunks := e.speech_chunks + 1
              silence_chunks := 0 }, none)
        else
          if e.silence_chunks + 1 ≥ e.confirmation_chunks then
            ({ e with
                buffer := e.buffer ++ pcm
                silence_chunks := e.silence_chunks + 1 },
             some { type := TurnEventType.TURN_END
                    buffer := some (e.buffer ++ pcm) })
          else
            ({ e with
                buffer := e.buffer ++ pcm
                silence_chunks := e.silence_chunks + 1 }, none)
      | TurnState.WAITING_INCOMPLETE =>
        if voice then
          ({ e with
              state := TurnState.LISTENING
              buffer := e.buffer ++ pcm
              speech_chunks := e.speech_chunks + 1
              silence_chunks := 0 }, none)
        else
          if e.silence_chunks + 1 ≥ e.comfort_wait_chunks then
            (reset e, some { type := TurnEventType.COMFORT })
          else if e.silence_chunks + 1 ≥ e.incomplete_wait_chunks then
            (reset e, some { type := TurnEventType.CONTINUATION_CUE })
          else
            ({ e with silence_chunks := e.silence_chunks + 1 }, none)

/-! ### Runs of the turn-taking engine -/

/-- The engine after a run of chunks through `process_chunk`. -/
def runEngine (e : TurnTakingEngine) (cs : List (List ℕ)) : TurnTakingEngine :=
  cs.foldl (fun e c => (process_chunk e c).1) e

/-- The engine after a run of chunks, together with each chunk's emitted
event. -/
def runEngineEvents (e : TurnTakingEngine) :
    List (List ℕ) → TurnTakingEngine × List (Option TurnEvent)
  | [] => (e, [])
  | c :: cs =>
    let step := process_chunk e c
    let rest := runEngineEvents step.1 cs
    (rest.1, step.2 :: rest.2)

/-- How `process_chunk` classifies a chunk: `some true` = speech,
`some false` = silence, `none` = skipped (empty or smaller than one frame;
the `has_voice_uncertain = None` branch is unreachable, see
`has_voice_uncertain_eq`). -/
def classify_chunk (c : List ℕ) : Option Bool :=
  if c.length < FRAME_BYTES then none else has_voice_uncertain c

/-- One step of the silence-run count: chunks classified as speech restart
the count, chunks classified as silence extend it, skipped chunks leave it. -/
def silence_step (n : ℕ) (c : List ℕ) : ℕ :=
  match classify_chunk c with
  | some true => 0
  | some false => n + 1
  | none => n

/-- The number of chunks classified as silence since the last chunk
classified as speech, over a whole run. -/
def silence_run (cs : List (List ℕ)) : ℕ := cs.foldl silence_step 0

/-- Engines reachable from `e0` by `process_chunk`, `finalize_turn` and
`turn_end_incomplete` — the three operations the orchestrator calls. -/
inductive Reachable (e0 : TurnTakingEngine) : TurnTakingEngine → Prop
  | refl : Reachable e0 e0
  | chunk {e} (c : List ℕ) : Reachable e0 e → Reachable e0 (process_chunk e c).1
  | finalize {e} : Reachable e0 e → Reachable e0 (finalize_turn e)
  | incomplete {e} : Reachable e0 e → Reachable e0 (turn_end_incomplete e)

/-! ### Concrete 640-byte (one frame, 320 sample) chunks

Each is 320 copies of one little-endian 16-bit sample, giving a constant
signal whose mean absolute amplitude lands in a chosen band of
`vad_probability`:
sample 0 → probability 0.0, sample 300 → 0.3, sample 600 → 0.5,
sample 4096 → 1.0. -/

def silentChunk : List ℕ := (List.replicate 320 [0, 0]).flatten

def speechChunk : List ℕ := (List.replicate 320 [0, 16]).flatten

def weakChunk : List ℕ := (List.replicate 320 [44, 1]).flatten

def midChunk : List ℕ := (List.replicate 320 [88, 2]).flatten

/-- A run that takes the default engine to the first TURN_END emission:
two speech chunks (≥ `min_speech_chunks` = 2), five silence chunks (the
grace window), one more silence chunk (first of the confirmation window);
the ninth chunk (a further silence) then emits TURN_END. -/
def demoTrace : List (List ℕ) :=
  [speechChunk, speechChunk, silentChunk, silentChunk, silentChunk,
   silentChunk, silentChunk, silentChunk]

/-- The engine buffer accumulated over `demoTrace` (appends nested the way
`process_chunk` builds them). -/
def demoBuffer : List ℕ :=
  ((((((speechChunk ++ speechChunk) ++ silentChunk) ++ silentChunk) ++
        silentChunk) ++ silentChunk) ++ silentChunk) ++ silentChunk

/-- The TURN_END event emitted on the ninth chunk after `demoTrace`. -/
def demoEvent : TurnEvent :=
  { type := TurnEventType.TURN_END, buffer := some (demoBuffer ++ silentChunk) }

/-! ### src/confidence_router.py -/

inductive ConfidenceAction where
  | ACCEPT
  | CLARIFY
  | REJECT
  deriving DecidableEq

/-- The `asr_result` dict as consumed by `ConfidenceRouter.route`:
`confidence` (default 0.0) and `text` (default ""); `language` is not read
by the router. -/
structure ASRResult where
  text : String := ""
  confidence : ℚ := 0

structure ConfidenceRouter where
  high_threshold : ℚ := 8/10
  low_threshold : ℚ := 2/10

/-- `ConfidenceRouter.route(asr_result)`. -/
def ConfidenceRouter.route (r : ConfidenceRouter) (asr : ASRResult) :
    ConfidenceAction × String :=
  if asr.confidence ≥ r.high_threshold then (ConfidenceAction.ACCEPT, asr.text)
  else if asr.confidence ≥ r.low_threshold then
    (ConfidenceAction.CLARIFY, asr.text)
  else (ConfidenceAction.REJECT, "")

/-! ### src/conversation_engine.py -/

inductive ConversationState where
  | INIT
  | GREETING
  | LISTENING
  | PROCESSING
  | RESPONDING
  | CLARIFYING
  | ERROR
  | END
  deriving DecidableEq

inductive InputQuality where
  | EMPTY
  | UNCLEAR
  | CLEAR
  deriving DecidableEq

/-- The per-session `conversation:{session_id}` hash the engine reads and
writes through redis (timestamps and `last_intent`, which no transition
reads, are not modelled). -/
structure ConversationData where
  state : ConversationState
  turn_count : ℕ
  clarification_count : ℕ
  silence_prompts : ℕ
  last_user_input : String
  deriving DecidableEq

namespace ConversationEngine

/-- `self.max_clarifications` set in `ConversationEngine.__init__`. -/
def max_clarifications : ℕ := 2

/-- `self.max_silence_prompts` set in `ConversationEngine.__init__`. -/
def max_silence_prompts : ℕ := 2

/-- `self.max_turns` set in `ConversationEngine.__init__`. -/
def max_turns : ℕ := 20

/-- `if not user_text or len(user_text.strip()) == 0`, the empty-input test
of the LISTENING and CLARIFYING branches (`None` or whitespace-only). -/
def isEmptyInput : Option String → Bool
  | none => true
  | some t => t.trim = ""

def get_greeting : String :=
  "Hello! Welcome to SmileCare Dental Clinic. How can I help you today?"

/-- `get_clarification_message(session_id)` reading the stored
`clarification_count`. -/
def get_clarification_message (d : ConversationData) : String :=
  if d.clarification_count = 1 then
    "I didn't catch that clearly. Could you please repeat?"
  else
    "I'm still having trouble understanding. Could you speak more clearly?"

def get_error_message : String :=
  "I'm having trouble understanding you. Let me connect you to a human representative who can assist you better."

/-- `get_silence_prompt(session_id)` reading the stored `silence_prompts`. -/
def get_silence_prompt (d : ConversationData) : String :=
  if d.silence_prompts = 0 then
    "I'm listening. Please go ahead and speak."
  else if d.silence_prompts = 1 then
    "I'm still here. Please tell me how I can help you."
  else
    "I didn't hear anything. If you need assistance, please speak now or I'll end this call."

def get_nudge_message : String := "Are you still there?"

def get_comfort_message : String := "Take your time, I'm listening."

def get_continuation_cue : String := "Mm-hmm… go on."

/-- `process_state_transition(session_id, user_text)`: the updated
conversation row paired with the returned `(new_state, response_text,
should_end)`. The LLM-backed `analyze_input_quality` call made in the
PROCESSING branch is abstracted as the `quality` argument (its value is
whatever the classifier returns there); no other branch consults it.
The source's unreachable trailing fallback (every `ConversationState` is
already handled) is omitted. -/
def process_state_transition (d : ConversationData) (user_text : Option String)
    (quality : InputQuality) :
    ConversationData × ConversationState × String × Bool :=
  match d.state with
  | ConversationState.INIT =>
    ({ d with state := ConversationState.GREETING },
     ConversationState.GREETING, get_greeting, false)
  | ConversationState.GREETING =>
    ({ d with state := ConversationState.LISTENING },
     ConversationState.LISTENING, "", false)
  | ConversationState.LISTENING =>
    if isEmptyInput user_text then
      -- silence_count is read before the increment here
      let silence_count := d.silence_prompts
      let d1 := { d with silence_prompts := d.silence_prompts + 1 }
      if silence_count ≥ max_silence_prompts then
        ({ d1 with state := ConversationState.END }, ConversationState.END,
         "Thank you for calling. Have a great day!", true)
      else
        (d1, ConversationState.LISTENING, get_silence_prompt d1, false)
    else
      ({ d with
          last_user_input := user_text.getD ""
          state := ConversationState.PROCESSING },
       ConversationState.PROCESSING, "", false)
  | ConversationState.PROCESSING =>
    match quality with
    | InputQuality.EMPTY =>
      -- here the count is incremented first and read after
      let d1 := { d with silence_prompts := d.silence_prompts + 1 }
      if d1.silence_prompts ≥ max_silence_prompts then
        ({ d1 with state := ConversationState.END }, ConversationState.END,
         "Thank you for calling. Have a great day!", true)
      else
        ({ d1 with state := ConversationState.LISTENING },
         ConversationState.LISTENING, get_silence_prompt d1, false)
    | InputQuality.UNCLEAR =>
      -- clarification_count is read before the increment
      let clarification_count := d.clarification_count
      let d1 := { d with clarification_count := d.clarification_count + 1 }
      if clarification_count ≥ max_clarifications then
        ({ d1 with state := ConversationState.ERROR }, ConversationState.ERROR,
         get_error_message, true)
      else
        ({ d1 with state := ConversationState.CLARIFYING },
         ConversationState.CLARIFYING, get_clarification_message d1, false)
    | InputQuality.CLEAR =>
      ({ d with state := ConversationState.RESPONDING },
       ConversationState.RESPONDING, "", false)
  | ConversationState.CLARIFYING =>
    if isEmptyInput user_text then
      let d1 := { d with silence_prompts := d.silence_prompts + 1 }
      if d1.silence_prompts ≥ max_silence_prompts then
        ({ d1 with state := ConversationState.END }, ConversationState.END,
         "Thank you for calling. Have a great day!", true)
      else
        ({ d1 with state := ConversationState.LISTENING },
         ConversationState.LISTENING, get_silence_prompt d1, false)
    else
      ({ d with
          last_user_input := user_text.getD ""
          state := ConversationState.PROCESSING },
       ConversationState.PROCESSING, "", false)
  | ConversationState.RESPONDING =>
    let d1 := { d with turn_count := d.turn_count + 1 }
    if d1.turn_count ≥ max_turns then
      ({ d1 with state := ConversationState.END }, ConversationState.END,
       "Thank you for the conversation. Have a great day!", true)
    else
      ({ d1 with state := ConversationState.LISTENING },
       ConversationState.LISTENING, "", false)
  | ConversationState.ERROR =>
    ({ d with state := ConversationState.END }, ConversationState.END, "", true)
  | ConversationState.END => (d, ConversationState.END, "", true)

end ConversationEngine

/-! ### src/app.py — the websocket frame loop's barge-in logic -/

/-- The orchestrator's per-connection barge-in state: `bot_speaking` and the
`_barge_in_frames` counter (initialised to 0 on first use by the
`hasattr` guard). -/
structure BargeState where
  bot_speaking : Bool
  barge_in_frames : ℕ
  deriving DecidableEq

/-- One frame through the barge-in block of `websocket_voice` (src/app.py):
given the frame's VAD probability, returns the new state and whether a
`{type:"barge_in"}` message is sent. `within_speaking_window` abstracts the
wall-clock test `time.time() <= bot_speaking_until` of the low-probability
branch (it affects only whether `bot_speaking` is cleared there, never the
message). With `bot_speaking=false` the block is skipped. -/
def barge_step (s : BargeState) (vad_prob : ℚ) (within_speaking_window : Bool) :
    BargeState × Bool :=
  if s.bot_speaking then
    if vad_prob ≥ 6/10 then
      let n := s.barge_in_frames + 1
      if n ≥ 2 then ({ bot_speaking := false, barge_in_frames := 0 }, true)
      else ({ s with barge_in_frames := n }, false)
    else
      if within_speaking_window then ({ s with barge_in_frames := 0 }, false)
      else ({ bot_speaking := false, barge_in_frames := 0 }, false)
  else (s, false)

/-! ### Basic facts and characterization lemmas -/

theorem FRAME_BYTES_eq : FRAME_BYTES = 640 := rfl

theorem process_chunk_short (e : TurnTakingEngine) (c : List ℕ)
    (h : c.length < FRAME_BYTES) :
    process_chunk e c =
      (if e.state = TurnState.LISTENING ∨ e.state = TurnState.CANDIDATE_END
       then { e with buffer := e.buffer ++ c } else e, none) := by
  rcases eq_or_ne c [] with rfl | hne
  · by_cases hs : e.state = TurnState.LISTENING ∨ e.state = TurnState.CANDIDATE_END <;>
      simp [process_chunk, hs]
  · simp only [process_chunk, if_neg hne, if_pos h]
    split <;> rfl

theorem chunk_nonempty_of_frame {c : List ℕ} (hlen : FRAME_BYTES ≤ c.length) :
    c ≠ [] := by
  intro h
  rw [h] at hlen
  simp [FRAME_BYTES_eq] at hlen

theorem process_chunk_voice_IDLE (e : TurnTakingEngine) (c : List ℕ)
    (hs : e.state = TurnState.IDLE) (hlen : FRAME_BYTES ≤ c.length)
    (hv : has_voice_uncertain c = some true) :
    process_chunk e c =
      ({ e with
          state := TurnState.LISTENING
          buffer := c
          speech_chunks := 1
          silence_chunks := 0
          idle_silence_chunks := 0 }, none) := by
  simp only [process_chunk, if_neg (chunk_nonempty_of_frame hlen),
    if_neg (not_lt.mpr hlen), hv, hs, if_pos]

theorem process_chunk_voice_LISTENING (e : TurnTakingEngine) (c : List ℕ)
    (hs : e.state = TurnState.LISTENING) (hlen : FRAME_BYTES ≤ c.length)
    (hv : has_voice_uncertain c = some true) :
    process_chunk e c =
      ({ e with
          buffer := e.buffer ++ c
          speech_chunks := e.speech_chunks + 1
          silence_chunks := 0 }, none) := by
  simp only [process_chunk, if_neg (chunk_nonempty_of_frame hlen),
    if_neg (not_lt.mpr hlen), hv, hs, if_pos]

theorem process_chunk_voice_CANDIDATE (e : TurnTakingEngine) (c : List ℕ)
    (hs : e.state = TurnState.CANDIDATE_END) (hlen : FRAME_BYTES ≤ c.length)
    (hv : has_voice_uncertain c = some true) :
    process_chunk e c =
      ({ e with
          state := TurnState.LISTENING
          buffer := e.buffer ++ c
          speech_chunks := e.speech_chunks + 1
          silence_chunks := 0 }, none) := by
  simp only [process_chunk, if_neg (chunk_nonempty_of_frame hlen),
    if_neg (not_lt.mpr hlen), hv, hs, if_pos]

theorem process_chunk_voice_WAITING (e : TurnTakingEngine) (c : List ℕ)
    (hs : e.state = TurnState.WAITING_INCOMPLETE) (hlen : FRAME_BYTES ≤ c.length)
    (hv : has_voice_uncertain c = some true) :
    process_chunk e c =
      ({ e with
          state := TurnState.LISTENING
          buffer := e.buffer ++ c
          speech_chunks := e.speech_chunks + 1
          silence_chunks := 0 }, none) := by
  simp only [process_chunk, if_neg (chunk_nonempty_of_frame hlen),
    if_neg (not_lt.mpr hlen), hv, hs, if_pos]

theorem process_chunk_silence_IDLE (e : TurnTakingEngine) (c : List ℕ)
    (hs : e.state = TurnState.IDLE) (hlen : FRAME_BYTES ≤ c.length)
    (hv : has_voice_uncertain c = some false) :
    process_chunk e c =
      (if e.idle_silence_chunks + 1 ≥ e.nudge_chunks then
        ({ e with idle_silence_chunks := 0 },
         some { type := TurnEventType.NUDGE })
       else ({ e with idle_silence_chunks := e.idle_silence_chunks + 1 },
             none)) := by
  simp only [process_chunk, if_neg (chunk_nonempty_of_frame hlen),
    if_neg (not_lt.mpr hlen), hv, hs, Bool.false_eq_true, if_false]

theorem process_chunk_silence_LISTENING (e : TurnTakingEngine) (c : List ℕ)
    (hs : e.state = TurnState.LISTENING) (hlen : FRAME_BYTES ≤ c.length)
    (hv : has_voice_uncertain c = some false) :
    process_chunk e c =
      (if e.silence_chunks + 1 ≥ e.silence_grace_chunks then
        if e.speech_chunks ≥ e.min_speech_chunks then
          ({ e with
              buffer := e.buffer ++ c
              state := TurnState.CANDIDATE_END
              silence_chunks := 0 }, none)
        else
          ({ e with
              state := TurnState.IDLE
              buffer := []
              speech_chunks := 0
              silence_chunks := 0 }, none)
       else
        ({ e with
            buffer := e.buffer ++ c
            silence_chunks := e.silence_chunks + 1 }, none)) := by
  simp only [process_chunk, if_neg (chunk_nonempty_of_frame hlen),
    if_neg (not_lt.mpr hlen), hv, hs, Bool.false_eq_true, if_false]

theorem process_chunk_silence_CANDIDATE (e : TurnTakingEngine) (c : List ℕ)
    (hs : e.state = TurnState.CANDIDATE_END) (hlen : FRAME_BYTES ≤ c.length)
    (hv : has_voice_uncertain c = some false) :
    process_chunk e c =
      (if e.silence_chunks + 1 ≥ e.confirmation_chunks then
        ({ e with
            buffer := e.buffer ++ c
            silence_chunks := e.silence_chunks + 1 },
         some { type := TurnEventType.TURN_END
                buffer := some (e.buffer ++ c) })
       else
        ({ e with
            buffer := e.buffer ++ c
            silence_chunks := e.silence_chunks + 1 }, none)) := by
  simp only [process_chunk, if_neg (chunk_nonempty_of_frame hlen),
    if_neg (not_lt.mpr hlen), hv, hs, Bool.false_eq_true, if_false]

theorem process_chunk_silence_WAITING (e : TurnTakingEngine) (c : List ℕ)
    (hs : e.state = TurnState.WAITING_INCOMPLETE) (hlen : FRAME_BYTES ≤ c.length)
    (hv : has_voice_uncertain c = some false) :
    process_chunk e c =
      (if e.silence_chunks + 1 ≥ e.comfort_wait_chunks then
        (reset e, some { type := TurnEventType.COMFORT })
       else if e.silence_chunks + 1 ≥ e.incomplete_wait_chunks then
        (reset e, some { type := TurnEventType.CONTINUATION_CUE })
       else ({ e with silence_chunks := e.silence_chunks + 1 }, none)) := by
  simp only [process_chunk, if_neg (chunk_nonempty_of_frame hlen),
    if_neg (not_lt.mpr hlen), hv, hs, Bool.false_eq_true, if_false]

/-! ### Concrete evaluations -/

set_option maxRecDepth 100000

theorem silentChunk_length : FRAME_BYTES ≤ silentChunk.length := by
  with_unfolding_all decide

theorem speechChunk_length : FRAME_BYTES ≤ speechChunk.length := by
  with_unfolding_all decide

theorem weakChunk_length : FRAME_BYTES ≤ weakChunk.length := by
  with_unfolding_all decide

theorem midChunk_length : FRAME_BYTES ≤ midChunk.length := by
  with_unfolding_all decide

theorem vad_weakChunk : vad_probability weakChunk = 3/10 := by
  with_unfolding_all decide

theorem vad_midChunk : vad_probability midChunk = 1/2 := by
  with_unfolding_all decide

theorem hv_silentChunk : has_voice_uncertain silentChunk = some false := by
  with_unfolding_all decide

theorem hv_speechChunk : has_voice_uncertain speechChunk = some true := by
  with_unfolding_all decide

theorem classify_silentChunk : classify_chunk silentChunk = some false := by
  rw [classify_chunk, if_neg (not_lt.mpr silentChunk_length), hv_silentChunk]

theorem classify_speechChunk : classify_chunk speechChunk = some true := by
  rw [classify_chunk, if_neg (not_lt.mpr speechChunk_length), hv_speechChunk]

theorem mkEngine_state (cm : ℚ) (cfg : TurnConfig) :
    (mkEngine cm cfg).state = TurnState.IDLE := rfl

theorem mkEngine_buffer (cm : ℚ) (cfg : TurnConfig) :
    (mkEngine cm cfg).buffer = [] := rfl

theorem mkEngine_counters (cm : ℚ) (cfg : TurnConfig) :
    (mkEngine cm cfg).silence_chunks = 0 ∧ (mkEngine cm cfg).speech_chunks = 0 ∧
    (mkEngine cm cfg).idle_silence_chunks = 0 := ⟨rfl, rfl, rfl⟩

theorem mkEngine_default_grace : (mkEngine).silence_grace_chunks = 5 := by
  with_unfolding_all decide

theorem mkEngine_default_confirmation : (mkEngine).confirmation_chunks = 2 := by
  with_unfolding_all decide

theorem mkEngine_default_min_speech : (mkEngine).min_speech_chunks = 2 := by
  with_unfolding_all decide

theorem mkEngine_default_nudge : (mkEngine).nudge_chunks = 8 := by
  with_unfolding_all decide

theorem mkEngine_default_incomplete : (mkEngine).incomplete_wait_chunks = 2 := by
  with_unfolding_all decide

theorem mkEngine_default_comfort : (mkEngine).comfort_wait_chunks = 8 := by
  with_unfolding_all decide

/-! ### The timing parameters are constant through a run -/

theorem process_chunk_params (e : TurnTakingEngine) (c : List ℕ) :
    (process_chunk e c).1.silence_grace_chunks = e.silence_grace_chunks ∧
    (process_chunk e c).1.confirmation_chunks = e.confirmation_chunks ∧
    (process_chunk e c).1.min_speech_chunks = e.min_speech_chunks ∧
    (process_chunk e c).1.nudge_chunks = e.nudge_chunks ∧
    (process_chunk e c).1.incomplete_wait_chunks = e.incomplete_wait_chunks ∧
    (process_chunk e c).1.comfort_wait_chunks = e.comfort_wait_chunks := by
  rcases lt_or_ge c.length FRAME_BYTES with hlt | hge
  · rw [process_chunk_short e c hlt]
    split <;> simp
  · have hv := has_voice_uncertain_eq c
    cases hsv : decide ((1:ℚ)/10 ≤ vad_probability c) with
    | false =>
      rw [hsv] at hv
      cases hstate : e.state with
      | IDLE =>
        rw [process_chunk_silence_IDLE e c hstate hge hv]
        split_ifs <;> simp
      | LISTENING =>
        rw [process_chunk_silence_LISTENING e c hstate hge hv]
        split_ifs <;> simp
      | CANDIDATE_END =>
        rw [process_chunk_silence_CANDIDATE e c hstate hge hv]
        split_ifs <;> simp
      | WAITING_INCOMPLETE =>
        rw [process_chunk_silence_WAITING e c hstate hge hv]
        split_ifs <;> simp [reset]
    | true =>
      rw [hsv] at hv
      cases hstate : e.state with
      | IDLE =>
        rw [process_chunk_voice_IDLE e c hstate hge hv]
        exact ⟨rfl, rfl, rfl, rfl, rfl, rfl⟩
      | LISTENING =>
        rw [process_chunk_voice_LISTENING e c hstate hge hv]
        exact ⟨rfl, rfl, rfl, rfl, rfl, rfl⟩
      | CANDIDATE_END =>
        rw [process_chunk_voice_CANDIDATE e c hstate hge hv]
        exact ⟨rfl, rfl, rfl, rfl, rfl, rfl⟩
      | WAITING_INCOMPLETE =>
        rw [process_chunk_voice_WAITING e c hstate hge hv]
        exact ⟨rfl, rfl, rfl, rfl, rfl, rfl⟩

theorem runEngine_cons (e : TurnTakingEngine) (c : List ℕ) (cs : List (List ℕ)) :
    runEngine e (c :: cs) = runEngine (process_chunk e c).1 cs := rfl

theorem runEngine_params (cs : List (List ℕ)) :
    ∀ e : TurnTakingEngine,
      (runEngine e cs).silence_grace_chunks = e.silence_grace_chunks ∧
      (runEngine e cs).confirmation_chunks = e.confirmation_chunks ∧
      (runEngine e cs).min_speech_chunks = e.min_speech_chunks := by
  induction cs with
  | nil => exact fun e => ⟨rfl, rfl, rfl⟩
  | cons c cs ih =>
    intro e
    rw [runEngine_cons]
    obtain ⟨h1, h2, h3, _⟩ := process_chunk_params e c
    obtain ⟨g1, g2, g3⟩ := ih (process_chunk e c).1
    exact ⟨g1.trans h1, g2.trans h2, g3.trans h3⟩

/-! ### What a TURN_END emission implies -/

theorem turn_end_emission (e : TurnTakingEngine) (c : List ℕ) (ev : TurnEvent)
    (h : (process_chunk e c).2 = some ev) (ht : ev.type = TurnEventType.TURN_END) :
    FRAME_BYTES ≤ c.length ∧ has_voice_uncertain c = some false ∧
    e.state = TurnState.CANDIDATE_END ∧
    e.confirmation_chunks ≤ e.silence_chunks + 1 ∧
    ev = { type := TurnEventType.TURN_END, buffer := some (e.buffer ++ c) } ∧
    (process_chunk e c).1 =
      { e with buffer := e.buffer ++ c, silence_chunks := e.silence_chunks + 1 } := by
  rcases lt_or_ge c.length FRAME_BYTES with hlt | hge
  · rw [process_chunk_short e c hlt] at h
    split at h <;> simp at h
  · have hv := has_voice_uncertain_eq c
    cases hsv : decide ((1:ℚ)/10 ≤ vad_probability c) with
    | true =>
      rw [hsv] at hv
      cases hstate : e.state with
      | IDLE => rw [process_chunk_voice_IDLE e c hstate hge hv] at h; simp at h
      | LISTENING =>
        rw [process_chunk_voice_LISTENING e c hstate hge hv] at h; simp at h
      | CANDIDATE_END =>
        rw [process_chunk_voice_CANDIDATE e c hstate hge hv] at h; simp at h
      | WAITING_INCOMPLETE =>
        rw [process_chunk_voice_WAITING e c hstate hge hv] at h; simp at h
    | false =>
      rw [hsv] at hv
      cases hstate : e.state with
      | IDLE =>
        rw [process_chunk_silence_IDLE e c hstate hge hv] at h
        split_ifs at h <;>
          first
            | (simp only [Option.some.injEq] at h
               subst h
               simp at ht)
            | simp at h
      | LISTENING =>
        rw [process_chunk_silence_LISTENING e c hstate hge hv] at h
        split_ifs at h <;> simp at h
      | WAITING_INCOMPLETE =>
        rw [process_chunk_silence_WAITING e c hstate hge hv] at h
        split_ifs at h <;>
          first
            | (simp only [Option.some.injEq] at h
               subst h
               simp at ht)
            | simp at h
      | CANDIDATE_END =>
        rw [process_chunk_silence_CANDIDATE e c hstate hge hv] at h
        split_ifs at h with hcond <;>
          first
            | (simp only [Option.some.injEq] at h
               refine ⟨hge, hv, rfl, hcond, h.symm, ?_⟩
               rw [process_chunk_silence_CANDIDATE e c hstate hge hv,
                 if_pos hcond, hstate])
            | simp at h

/-! ### The silence-run invariant behind C1 -/

theorem silence_step_skip (r : ℕ) (c : List ℕ) (hlt : c.length < FRAME_BYTES) :
    silence_step r c = r := by
  simp [silence_step, classify_chunk, hlt]

theorem silence_step_voice (r : ℕ) (c : List ℕ) (hge : FRAME_BYTES ≤ c.length)
    (hv : has_voice_uncertain c = some true) : silence_step r c = 0 := by
  simp [silence_step, classify_chunk, not_lt.mpr hge, hv]

theorem silence_step_silent (r : ℕ) (c : List ℕ) (hge : FRAME_BYTES ≤ c.length)
    (hv : has_voice_uncertain c = some false) : silence_step r c = r + 1 := by
  simp [silence_step, classify_chunk, not_lt.mpr hge, hv]

theorem silence_run_inv_step (g : ℕ) (e : TurnTakingEngine) (c : List ℕ) (r : ℕ)
    (hg : e.silence_grace_chunks = g)
    (hL : e.state = TurnState.LISTENING → e.silence_chunks ≤ r)
    (hC : e.state = TurnState.CANDIDATE_END → g + e.silence_chunks ≤ r) :
    ((process_chunk e c).1.state = TurnState.LISTENING →
      (process_chunk e c).1.silence_chunks ≤ silence_step r c) ∧
    ((process_chunk e c).1.state = TurnState.CANDIDATE_END →
      g + (process_chunk e c).1.silence_chunks ≤ silence_step r c) := by
  rcases lt_or_ge c.length FRAME_BYTES with hlt | hge
  · rw [process_chunk_short e c hlt, silence_step_skip r c hlt]
    split
    · exact ⟨fun hs => hL hs, fun hs => hC hs⟩
    · exact ⟨hL, hC⟩
  · have hv := has_voice_uncertain_eq c
    cases hsv : decide ((1:ℚ)/10 ≤ vad_probability c) with
    | true =>
      rw [hsv] at hv
      rw [silence_step_voice r c hge hv]
      cases hstate : e.state with
      | IDLE => rw [process_chunk_voice_IDLE e c hstate hge hv]; simp
      | LISTENING => rw [process_chunk_voice_LISTENING e c hstate hge hv]; simp [hstate]
      | CANDIDATE_END => rw [process_chunk_voice_CANDIDATE e c hstate hge hv]; simp
      | WAITING_INCOMPLETE => rw [process_chunk_voice_WAITING e c hstate hge hv]; simp
    | false =>
      rw [hsv] at hv
      rw [silence_step_silent r c hge hv]
      cases hstate : e.state with
      | IDLE =>
        rw [process_chunk_silence_IDLE e c hstate hge hv]
        split_ifs <;> simp [hstate]
      | LISTENING =>
        have hsil := hL hstate
        rw [process_chunk_silence_LISTENING e c hstate hge hv]
        split_ifs with h1 h2
        · refine ⟨fun hs => ?_, fun _ => ?_⟩
          · first
              | exact hs.elim
              | simp at hs
          · show g + 0 ≤ r + 1
            rw [hg] at h1
            omega
        · refine ⟨fun hs => ?_, fun hs => ?_⟩ <;>
            first
              | exact hs.elim
              | simp at hs
        · refine ⟨fun _ => ?_, fun hs => ?_⟩
          · show e.silence_chunks + 1 ≤ r + 1
            omega
          · first
              | exact hs.elim
              | simp [hstate] at hs
      | CANDIDATE_END =>
        have hsil := hC hstate
        rw [process_chunk_silence_CANDIDATE e c hstate hge hv]
        split_ifs <;>
          refine ⟨fun hs => ?_, fun _ => ?_⟩ <;>
            first
              | exact hs.elim
              | simp [hstate] at hs
              | (show g + (e.silence_chunks + 1) ≤ r + 1
                 omega)
      | WAITING_INCOMPLETE =>
        rw [process_chunk_silence_WAITING e c hstate hge hv]
        split_ifs <;> simp [reset, hstate]

theorem silence_run_inv (g : ℕ) (cs : List (List ℕ)) :
    ∀ (e : TurnTakingEngine) (r : ℕ), e.silence_grace_chunks = g →
      (e.state = TurnState.LISTENING → e.silence_chunks ≤ r) →
      (e.state = TurnState.CANDIDATE_END → g + e.silence_chunks ≤ r) →
      ((runEngine e cs).state = TurnState.LISTENING →
        (runEngine e cs).silence_chunks ≤ cs.foldl silence_step r) ∧
      ((runEngine e cs).state = TurnState.CANDIDATE_END →
        g + (runEngine e cs).silence_chunks ≤ cs.foldl silence_step r) := by
  induction cs with
  | nil => exact fun e r _ hL hC => ⟨hL, hC⟩
  | cons c cs ih =>
    intro e r hg hL hC
    rw [runEngine_cons, List.foldl_cons]
    obtain ⟨hL', hC'⟩ := silence_run_inv_step g e c r hg hL hC
    exact ih (process_chunk e c).1 (silence_step r c)
      ((process_chunk_params e c).1.trans hg) hL' hC'

/-! ### More helper lemmas -/

theorem hv_weakChunk : has_voice_uncertain weakChunk = some true := by
  with_unfolding_all decide

theorem hv_midChunk : has_voice_uncertain midChunk = some true := by
  with_unfolding_all decide

theorem runEngine_nil (e : TurnTakingEngine) : runEngine e [] = e := rfl

theorem runEngineEvents_cons (e : TurnTakingEngine) (c : List ℕ)
    (cs : List (List ℕ)) :
    runEngineEvents e (c :: cs) =
      ((runEngineEvents (process_chunk e c).1 cs).1,
       (process_chunk e c).2 :: (runEngineEvents (process_chunk e c).1 cs).2) :=
  rfl

theorem runEngineEvents_length (cs : List (List ℕ)) :
    ∀ e : TurnTakingEngine, (runEngineEvents e cs).2.length = cs.length := by
  induction cs with
  | nil => intro e; rfl
  | cons c cs ih =>
    intro e
    rw [runEngineEvents_cons]
    simp [ih]

theorem reachable_runEngine (cs : List (List ℕ)) :
    ∀ {e0 e : TurnTakingEngine}, Reachable e0 e →
      Reachable e0 (runEngine e cs) := by
  induction cs with
  | nil => exact fun h => h
  | cons c cs ih =>
    intro e0 e h
    rw [runEngine_cons]
    exact ih (Reachable.chunk c h)

theorem q_six_tenths_le_one : (6:ℚ)/10 ≤ 1 := by norm_num

theorem q_zero_lt_six_tenths : (0:ℚ) < 6/10 := by norm_num

/-! ### The run `demoTrace` reaches CANDIDATE_END and then emits TURN_END -/

theorem demo_run :
    runEngine mkEngine demoTrace =
      { mkEngine with
          state := TurnState.CANDIDATE_END
          buffer := demoBuffer
          silence_chunks := 1
          speech_chunks := 2 } := by
  have hg : mkEngine.silence_grace_chunks = 5 := mkEngine_default_grace
  have hm : mkEngine.min_speech_chunks = 2 := mkEngine_default_min_speech
  show runEngine mkEngine
      [speechChunk, speechChunk, silentChunk, silentChunk, silentChunk,
       silentChunk, silentChunk, silentChunk] = _
  rw [runEngine_cons,
    process_chunk_voice_IDLE mkEngine speechChunk rfl speechChunk_length
      hv_speechChunk]
  dsimp only
  rw [runEngine_cons,
    process_chunk_voice_LISTENING _ speechChunk rfl speechChunk_length
      hv_speechChunk]
  dsimp only
  rw [runEngine_cons,
    process_chunk_silence_LISTENING _ silentChunk rfl silentChunk_length
      hv_silentChunk]
  dsimp only
  rw [if_neg (by rw [hg]; omega)]
  dsimp only
  rw [runEngine_cons,
    process_chunk_silence_LISTENING _ silentChunk rfl silentChunk_length
      hv_silentChunk]
  dsimp only
  rw [if_neg (by rw [hg]; omega)]
  dsimp only
  rw [runEngine_cons,
    process_chunk_silence_LISTENING _ silentChunk rfl silentChunk_length
      hv_silentChunk]
  dsimp only
  rw [if_neg (by rw [hg]; omega)]
  dsimp only
  rw [runEngine_cons,
    process_chunk_silence_LISTENING _ silentChunk rfl silentChunk_length
      hv_silentChunk]
  dsimp only
  rw [if_neg (by rw [hg]; omega)]
  dsimp only
  rw [runEngine_cons,
    process_chunk_silence_LISTENING _ silentChunk rfl silentChunk_length
      hv_silentChunk]
  dsimp only
  rw [if_pos (by simp [hg]), if_pos (by simp [hm])]
  dsimp only
  rw [runEngine_cons,
    process_chunk_silence_CANDIDATE _ silentChunk rfl silentChunk_length
      hv_silentChunk]
  dsimp only
  rw [if_neg (by rw [mkEngine_default_confirmation]; omega)]
  dsimp only
  rw [runEngine_nil]
  rfl

theorem demo_emission :
    (process_chunk (runEngine mkEngine demoTrace) silentChunk).2 =
      some demoEvent := by
  rw [demo_run,
    process_chunk_silence_CANDIDATE _ silentChunk rfl silentChunk_length
      hv_silentChunk]
  dsimp only
  rw [if_pos (by simp [mkEngine_default_confirmation])]
  rfl

/-! ### The minimum-speech invariant behind C6 -/

theorem process_chunk_speech_inv (e : TurnTakingEngine) (c : List ℕ)
    (h : e.state = TurnState.CANDIDATE_END →
      e.min_speech_chunks ≤ e.speech_chunks) :
    (process_chunk e c).1.state = TurnState.CANDIDATE_END →
      (process_chunk e c).1.min_speech_chunks ≤
        (process_chunk e c).1.speech_chunks := by
  rcases lt_or_ge c.length FRAME_BYTES with hlt | hge
  · rw [process_chunk_short e c hlt]
    split
    · exact fun hs => h hs
    · exact h
  · have hv := has_voice_uncertain_eq c
    cases hsv : decide ((1:ℚ)/10 ≤ vad_probability c) with
    | true =>
      rw [hsv] at hv
      cases hstate : e.state with
      | IDLE =>
        rw [process_chunk_voice_IDLE e c hstate hge hv]
        intro hs
        first
          | exact hs.elim
          | simp at hs
      | LISTENING =>
        rw [process_chunk_voice_LISTENING e c hstate hge hv]
        intro hs
        first
          | exact hs.elim
          | simp [hstate] at hs
      | CANDIDATE_END =>
        rw [process_chunk_voice_CANDIDATE e c hstate hge hv]
        intro hs
        first
          | exact hs.elim
          | simp at hs
      | WAITING_INCOMPLETE =>
        rw [process_chunk_voice_WAITING e c hstate hge hv]
        intro hs
        first
          | exact hs.elim
          | simp at hs
    | false =>
      rw [hsv] at hv
      cases hstate : e.state with
      | IDLE =>
        rw [process_chunk_silence_IDLE e c hstate hge hv]
        split_ifs <;> intro hs <;>
          first
            | exact hs.elim
            | simp [hstate] at hs
      | LISTENING =>
        rw [process_chunk_silence_LISTENING e c hstate hge hv]
        split_ifs with h1 h2
        · intro _
          show e.min_speech_chunks ≤ e.speech_chunks
          exact h2
        · intro hs
          first
            | exact hs.elim
            | simp at hs
        · intro hs
          first
            | exact hs.elim
            | simp [hstate] at hs
      | CANDIDATE_END =>
        rw [process_chunk_silence_CANDIDATE e c hstate hge hv]
        split_ifs <;> intro _ <;>
          (show e.min_speech_chunks ≤ e.speech_chunks
           exact h hstate)
      | WAITING_INCOMPLETE =>
        rw [process_chunk_silence_WAITING e c hstate hge hv]
        split_ifs <;> intro hs <;>
          first
            | exact hs.elim
            | simp [reset, hstate] at hs

theorem reachable_speech_inv {e0 e : TurnTakingEngine} (hr : Reachable e0 e)
    (h0 : e0.state = TurnState.CANDIDATE_END →
      e0.min_speech_chunks ≤ e0.speech_chunks) :
    e.state = TurnState.CANDIDATE_END →
      e.min_speech_chunks ≤ e.speech_chunks := by
  induction hr with
  | refl => exact h0
  | chunk c _ ih => exact process_chunk_speech_inv _ c ih
  | finalize _ _ =>
    intro hs
    first
      | exact hs.elim
      | simp [finalize_turn, reset] at hs
  | incomplete _ _ =>
    intro hs
    first
      | exact hs.elim
      | simp [turn_end_incomplete] at hs

/-! ### All-silent runs from IDLE emit at most NUDGE events -/

theorem idle_silent_events (n : ℕ) :
    ∀ e : TurnTakingEngine, e.state = TurnState.IDLE →
      ∀ ev ∈ (runEngineEvents e (List.replicate n silentChunk)).2,
        ev = none ∨
        ev = some { type := TurnEventType.NUDGE, buffer := none } := by
  induction n with
  | zero =>
    intro e _ ev hev
    simp [runEngineEvents] at hev
  | succ n ih =>
    intro e he ev hev
    rw [List.replicate_succ, runEngineEvents_cons] at hev
    rw [process_chunk_silence_IDLE e silentChunk he silentChunk_length
      hv_silentChunk] at hev
    rcases List.mem_cons.mp hev with hev | hev
    · subst hev
      split_ifs <;> simp
    · split_ifs at hev with hcnd
      · refine ih _ ?_ ev hev
        exact he
      · refine ih _ ?_ ev hev
        exact he

/-! ### Helpers for the WAITING_INCOMPLETE all-silence run (C8) -/

theorem waiting_silent_two_steps (m : ℕ) :
    runEngineEvents (turn_end_incomplete mkEngine)
        (List.replicate (m + 2) silentChunk) =
      ((runEngineEvents (reset (turn_end_incomplete mkEngine))
          (List.replicate m silentChunk)).1,
       none ::
         some { type := TurnEventType.CONTINUATION_CUE, buffer := none } ::
           (runEngineEvents (reset (turn_end_incomplete mkEngine))
             (List.replicate m silentChunk)).2) := by
  have h1 : process_chunk (turn_end_incomplete mkEngine) silentChunk =
      ({ turn_end_incomplete mkEngine with silence_chunks := 0 + 1 }, none) := by
    rw [process_chunk_silence_WAITING _ silentChunk rfl silentChunk_length
      hv_silentChunk]
    rw [if_neg (by simp [turn_end_incomplete, mkEngine_default_comfort]),
      if_neg (by simp [turn_end_incomplete, mkEngine_default_incomplete])]
    rfl
  have h2 : process_chunk
        ({ turn_end_incomplete mkEngine with silence_chunks := 0 + 1 })
        silentChunk =
      (reset (turn_end_incomplete mkEngine),
       some { type := TurnEventType.CONTINUATION_CUE, buffer := none }) := by
    rw [process_chunk_silence_WAITING _ silentChunk rfl silentChunk_length
      hv_silentChunk]
    rw [if_neg (by simp [turn_end_incomplete, mkEngine_default_comfort]),
      if_pos (by simp [turn_end_incomplete, mkEngine_default_incomplete])]
    rfl
  show runEngineEvents (turn_end_incomplete mkEngine)
      (silentChunk :: silentChunk :: List.replicate m silentChunk) = _
  rw [runEngineEvents_cons, h1]
  dsimp only
  rw [runEngineEvents_cons, h2]

theorem waiting_silent_no_comfort (m : ℕ) :
    ∀ ev ∈ (runEngineEvents (turn_end_incomplete mkEngine)
        (List.replicate (m + 2) silentChunk)).2,
      ∀ t : TurnEvent, ev = some t → t.type ≠ TurnEventType.COMFORT := by
  rw [waiting_silent_two_steps m]
  intro ev hev t hevt
  rcases List.mem_cons.mp hev with rfl | hev
  · cases hevt
  rcases List.mem_cons.mp hev with rfl | hev
  · cases hevt
    simp
  · rcases idle_silent_events m (reset (turn_end_incomplete mkEngine)) rfl
      ev hev with rfl | rfl
    · cases hevt
    · cases hevt
      simp

/-! ### The ten claims -/

/-- C1: for every run of chunks fed to `process_chunk`, a TURN_END event is
emitted only if it was preceded by at least
`silence_grace_chunks + confirmation_chunks` chunks classified as silence
with no chunk classified as speech among them: the silence run ending at the
emitting chunk (`silence_run`, which restarts at 0 on every speech chunk) is
at least that long. -/
theorem turn_end_preceded_by_silence (cm : ℚ) (cfg : TurnConfig)
    (cs : List (List ℕ)) (c : List ℕ) (ev : TurnEvent)
    (h : (process_chunk (runEngine (mkEngine cm cfg) cs) c).2 = some ev)
    (ht : ev.type = TurnEventType.TURN_END) :
    (mkEngine cm cfg).silence_grace_chunks +
        (mkEngine cm cfg).confirmation_chunks ≤
      silence_run (cs ++ [c]) := by
  obtain ⟨hlen, hv, hstate, hcond, -, -⟩ :=
    turn_end_emission (runEngine (mkEngine cm cfg) cs) c ev h ht
  obtain ⟨-, hC⟩ :=
    silence_run_inv (mkEngine cm cfg).silence_grace_chunks cs (mkEngine cm cfg)
      0 rfl
      (fun hs => by rw [mkEngine_state] at hs; cases hs)
      (fun hs => by rw [mkEngine_state] at hs; cases hs)
  have h1 := hC hstate
  have hconf : (runEngine (mkEngine cm cfg) cs).confirmation_chunks =
      (mkEngine cm cfg).confirmation_chunks := (runEngine_params cs _).2.1
  have h2 : silence_run (cs ++ [c]) = cs.foldl silence_step 0 + 1 := by
    rw [silence_run, List.foldl_append, List.foldl_cons, List.foldl_nil]
    exact silence_step_silent _ c hlen hv
  rw [h2]
  rw [hconf] at hcond
  omega

/-- C1 witness: on the concrete run `demoTrace` (two speech chunks then six
silence chunks) a further silence chunk emits TURN_END, and the silence run
is at least `silence_grace_chunks + confirmation_chunks`. -/
theorem turn_end_preceded_by_silence_witness :
    (process_chunk (runEngine (mkEngine CHUNK_MS {}) demoTrace) silentChunk).2 =
      some demoEvent ∧
    (mkEngine CHUNK_MS {}).silence_grace_chunks +
        (mkEngine CHUNK_MS {}).confirmation_chunks ≤
      silence_run (demoTrace ++ [silentChunk]) :=
  ⟨demo_emission,
   turn_end_preceded_by_silence CHUNK_MS {} demoTrace silentChunk demoEvent
     demo_emission rfl⟩

/-- C2 counterexample: the claim says a chunk of VAD probability 0.3
processed in LISTENING leaves the speech/silence counters unchanged. On the
code it does not: after one speech chunk the engine is LISTENING with
`speech_chunks = 1`, and processing a probability-0.3 chunk changes
`speech_chunks`. -/
theorem uncertain_frames_counterexample :
    vad_probability weakChunk = 3/10 ∧
    (process_chunk mkEngine speechChunk).1.state = TurnState.LISTENING ∧
    (process_chunk (process_chunk mkEngine speechChunk).1 weakChunk).1.speech_chunks
      ≠ (process_chunk mkEngine speechChunk).1.speech_chunks := by
  have h1 := process_chunk_voice_IDLE mkEngine speechChunk rfl
    speechChunk_length hv_speechChunk
  refine ⟨vad_weakChunk, ?_, ?_⟩
  · rw [h1]
  · rw [h1]
    dsimp only
    rw [process_chunk_voice_LISTENING _ weakChunk rfl weakChunk_length
      hv_weakChunk]
    simp

/-- C2 (amended): a full-frame chunk whose VAD probability is 0.3 or 0.5 is
classified as speech (`has_voice_uncertain` returns true for any probability
at least 0.1, so its uncertain band is empty): in LISTENING or CANDIDATE_END
it is appended to the buffer, increments `speech_chunks`, resets
`silence_chunks` and leaves the engine in LISTENING; in IDLE it acts as a
speech trigger that starts LISTENING. -/
theorem uncertain_frames_are_speech (e : TurnTakingEngine) (c : List ℕ)
    (hp : vad_probability c = 3/10 ∨ vad_probability c = 1/2)
    (hlen : FRAME_BYTES ≤ c.length) :
    has_voice_uncertain c = some true ∧
    (e.state = TurnState.LISTENING ∨ e.state = TurnState.CANDIDATE_END →
      process_chunk e c =
        ({ e with
            state := TurnState.LISTENING
            buffer := e.buffer ++ c
            speech_chunks := e.speech_chunks + 1
            silence_chunks := 0 }, none)) ∧
    (e.state = TurnState.IDLE →
      process_chunk e c =
        ({ e with
            state := TurnState.LISTENING
            buffer := c
            speech_chunks := 1
            silence_chunks := 0
            idle_silence_chunks := 0 }, none)) := by
  have hv : has_voice_uncertain c = some true := by
    rw [has_voice_uncertain_eq]
    rcases hp with h | h <;> rw [h] <;> norm_num
  refine ⟨hv, ?_, ?_⟩
  · rintro (hs | hs)
    · rw [process_chunk_voice_LISTENING e c hs hlen hv, hs]
    · rw [process_chunk_voice_CANDIDATE e c hs hlen hv]
  · intro hs
    rw [process_chunk_voice_IDLE e c hs hlen hv]

/-- C2 witness: `weakChunk` has VAD probability 0.3; in IDLE it starts
LISTENING with itself as buffer. -/
theorem uncertain_frames_are_speech_witness :
    has_voice_uncertain weakChunk = some true ∧
    process_chunk mkEngine weakChunk =
      ({ mkEngine with
          state := TurnState.LISTENING
          buffer := weakChunk
          speech_chunks := 1
          silence_chunks := 0
          idle_silence_chunks := 0 }, none) :=
  ⟨(uncertain_frames_are_speech mkEngine weakChunk (Or.inl vad_weakChunk)
      weakChunk_length).1,
   (uncertain_frames_are_speech mkEngine weakChunk (Or.inl vad_weakChunk)
      weakChunk_length).2.2 rfl⟩

/-- C3 counterexample: in RESPONDING with `turn_count = 19`, the transition
reaches END with `should_end = true`, but its closing line is
"Thank you for the conversation. Have a great day!", not the claimed
"Thank you for calling. Have a great day!". -/
theorem responding_closing_counterexample :
    (ConversationEngine.process_state_transition
        { state := ConversationState.RESPONDING, turn_count := 19,
          clarification_count := 0, silence_prompts := 0, last_user_input := "" }
        none InputQuality.CLEAR).2.1 = ConversationState.END ∧
    (ConversationEngine.process_state_transition
        { state := ConversationState.RESPONDING, turn_count := 19,
          clarification_count := 0, silence_prompts := 0, last_user_input := "" }
        none InputQuality.CLEAR).2.2.2 = true ∧
    (ConversationEngine.process_state_transition
        { state := ConversationState.RESPONDING, turn_count := 19,
          clarification_count := 0, silence_prompts := 0, last_user_input := "" }
        none InputQuality.CLEAR).2.2.1 =
      "Thank you for the conversation. Have a great day!" ∧
    (ConversationEngine.process_state_transition
        { state := ConversationState.RESPONDING, turn_count := 19,
          clarification_count := 0, silence_prompts := 0, last_user_input := "" }
        none InputQuality.CLEAR).2.2.1 ≠
      "Thank you for calling. Have a great day!" := by
  refine ⟨rfl, rfl, rfl, ?_⟩
  decide

/-- C3 (amended): in RESPONDING, `process_state_transition` increments
`turn_count`; when the incremented count reaches `max_turns` (default 20) it
goes END with `should_end = true` and the closing line
"Thank you for the conversation. Have a great day!", otherwise back to
LISTENING with an empty response. -/
theorem responding_increments_turn_and_ends (d : ConversationData)
    (ut : Option String) (q : InputQuality)
    (hs : d.state = ConversationState.RESPONDING) :
    ConversationEngine.process_state_transition d ut q =
      if d.turn_count + 1 ≥ ConversationEngine.max_turns then
        ({ d with
            state := ConversationState.END
            turn_count := d.turn_count + 1 },
         ConversationState.END,
         "Thank you for the conversation. Have a great day!", true)
      else
        ({ d with
            state := ConversationState.LISTENING
            turn_count := d.turn_count + 1 },
         ConversationState.LISTENING, "", false) := by
  obtain ⟨st, tc, cc, sp, lui⟩ := d
  obtain rfl : st = ConversationState.RESPONDING := hs
  rfl

/-- C3 witness: at `turn_count = 19` the amended transition ends the call
with the conversation closing line. -/
theorem responding_increments_turn_and_ends_witness :
    ConversationEngine.process_state_transition
        { state := ConversationState.RESPONDING, turn_count := 19,
          clarification_count := 0, silence_prompts := 0, last_user_input := "" }
        none InputQuality.CLEAR =
      ({ state := ConversationState.END, turn_count := 20,
         clarification_count := 0, silence_prompts := 0, last_user_input := "" },
       ConversationState.END,
       "Thank you for the conversation. Have a great day!", true) := by
  rw [responding_increments_turn_and_ends _ none InputQuality.CLEAR rfl]
  rfl

/-- C4: with the default thresholds (high 0.8, low 0.2),
`ConfidenceRouter.route` returns ACCEPT exactly when confidence ≥ 0.8,
CLARIFY exactly when 0.2 ≤ confidence < 0.8, and REJECT exactly when
confidence < 0.2. -/
theorem route_thresholds (asr : ASRResult) :
    ((({} : ConfidenceRouter).route asr).1 = ConfidenceAction.ACCEPT ↔
      8/10 ≤ asr.confidence) ∧
    ((({} : ConfidenceRouter).route asr).1 = ConfidenceAction.CLARIFY ↔
      2/10 ≤ asr.confidence ∧ asr.confidence < 8/10) ∧
    ((({} : ConfidenceRouter).route asr).1 = ConfidenceAction.REJECT ↔
      asr.confidence < 2/10) := by
  have hh : ({} : ConfidenceRouter).high_threshold = 8/10 := rfl
  have hl : ({} : ConfidenceRouter).low_threshold = 2/10 := rfl
  unfold ConfidenceRouter.route
  rw [hh, hl]
  split_ifs with h1 h2
  · refine ⟨by simp [h1], ?_, ?_⟩
    · constructor
      · intro h
        cases h
      · intro h
        exact absurd h1 (not_le.mpr h.2)
    · constructor
      · intro h
        cases h
      · intro h
        exact absurd (lt_of_le_of_lt h1 h) (by norm_num)
  · refine ⟨?_, by simp [h2, not_le.mp h1], ?_⟩
    · constructor
      · intro h
        cases h
      · intro h
        exact absurd h h1
    · constructor
      · intro h
        cases h
      · intro h
        exact absurd h2 (not_le.mpr h)
  · refine ⟨?_, ?_, by simp [not_le.mp h2]⟩
    · constructor
      · intro h
        cases h
      · intro h
        exact absurd (le_trans (by norm_num) h) h2
    · constructor
      · intro h
        cases h
      · intro h
        exact absurd h.1 h2

/-- C5: while the bot is speaking (with the barge-in counter at 0, i.e. the
previous frame was not high), one frame with VAD probability ≥ 0.6 followed
by a frame below 0.6 sends no barge-in message; two consecutive frames
≥ 0.6 send the message exactly once (not on the first frame, once on the
second) and clear `bot_speaking`. -/
theorem barge_in_two_frames (s : BargeState) (hb : s.bot_speaking = true)
    (hf : s.barge_in_frames = 0) :
    (∀ (p1 p2 : ℚ) (w1 w2 : Bool), 6/10 ≤ p1 → p2 < 6/10 →
      (barge_step s p1 w1).2 = false ∧
      (barge_step (barge_step s p1 w1).1 p2 w2).2 = false) ∧
    (∀ (p1 p2 : ℚ) (w1 w2 : Bool), 6/10 ≤ p1 → 6/10 ≤ p2 →
      (barge_step s p1 w1).2 = false ∧
      (barge_step (barge_step s p1 w1).1 p2 w2).2 = true ∧
      (barge_step (barge_step s p1 w1).1 p2 w2).1.bot_speaking = false) := by
  have hstep1 : ∀ (p1 : ℚ) (w1 : Bool), 6/10 ≤ p1 →
      barge_step s p1 w1 = ({ s with barge_in_frames := 1 }, false) := by
    intro p1 w1 hp1
    unfold barge_step
    rw [if_pos hb, if_pos hp1, hf]
    rfl
  constructor
  · intro p1 p2 w1 w2 hp1 hp2
    rw [hstep1 p1 w1 hp1]
    refine ⟨rfl, ?_⟩
    unfold barge_step
    rw [if_pos (show ({ s with barge_in_frames := 1 } : BargeState).bot_speaking
        = true from hb),
      if_neg (not_le.mpr hp2)]
    cases w2 <;> rfl
  · intro p1 p2 w1 w2 hp1 hp2
    rw [hstep1 p1 w1 hp1]
    refine ⟨rfl, ?_, ?_⟩ <;>
      · unfold barge_step
        rw [if_pos (show ({ s with barge_in_frames := 1 } : BargeState).bot_speaking
            = true from hb),
          if_pos hp2]
        rfl

/-- C5 witness: from `bot_speaking = true` with counter 0, probability 1
followed by 0 sends nothing; probability 1 twice sends exactly one barge-in
and clears `bot_speaking`. -/
theorem barge_in_two_frames_witness :
    ((barge_step ⟨true, 0⟩ 1 true).2 = false ∧
     (barge_step (barge_step ⟨true, 0⟩ 1 true).1 0 true).2 = false) ∧
    ((barge_step ⟨true, 0⟩ 1 true).2 = false ∧
     (barge_step (barge_step ⟨true, 0⟩ 1 true).1 1 true).2 = true ∧
     (barge_step (barge_step ⟨true, 0⟩ 1 true).1 1 true).1.bot_speaking =
       false) :=
  ⟨(barge_in_two_frames ⟨true, 0⟩ rfl rfl).1 1 0 true true q_six_tenths_le_one
     q_zero_lt_six_tenths,
   (barge_in_two_frames ⟨true, 0⟩ rfl rfl).2 1 1 true true q_six_tenths_le_one
     q_six_tenths_le_one⟩

/-- C6: the engine never emits TURN_END unless the current utterance has
accumulated at least `min_speech_chunks` chunks classified as speech: for
every engine reachable from a fresh one, a TURN_END emission implies
`min_speech_chunks ≤ speech_chunks`. -/
theorem turn_end_min_speech (cm : ℚ) (cfg : TurnConfig)
    (e : TurnTakingEngine) (c : List ℕ) (ev : TurnEvent)
    (hr : Reachable (mkEngine cm cfg) e)
    (h : (process_chunk e c).2 = some ev)
    (ht : ev.type = TurnEventType.TURN_END) :
    e.min_speech_chunks ≤ e.speech_chunks := by
  obtain ⟨-, -, hstate, -, -, -⟩ := turn_end_emission e c ev h ht
  exact reachable_speech_inv hr
    (fun hs => by rw [mkEngine_state] at hs; cases hs) hstate

/-- C6 witness: at the TURN_END emitted after the concrete run `demoTrace`,
`min_speech_chunks ≤ speech_chunks` holds. -/
theorem turn_end_min_speech_witness :
    (runEngine mkEngine demoTrace).min_speech_chunks ≤
      (runEngine mkEngine demoTrace).speech_chunks :=
  turn_end_min_speech CHUNK_MS {} _ silentChunk demoEvent
    (reachable_runEngine demoTrace Reachable.refl) demo_emission rfl

/-- C7: starting LISTENING with `silence_prompts = 0`, three consecutive
empty inputs produce a tiered silence prompt on the first two calls (state
stays LISTENING, `should_end = false`) and on the third call END with the
closing line and `should_end = true`. -/
theorem silent_caller_three_calls (d : ConversationData) (q : InputQuality)
    (h1 : d.state = ConversationState.LISTENING)
    (h2 : d.silence_prompts = 0) :
    ConversationEngine.process_state_transition d none q =
      ({ d with silence_prompts := 1 }, ConversationState.LISTENING,
       "I'm still here. Please tell me how I can help you.", false) ∧
    ConversationEngine.process_state_transition
        { d with silence_prompts := 1 } none q =
      ({ d with silence_prompts := 2 }, ConversationState.LISTENING,
       "I didn't hear anything. If you need assistance, please speak now or I'll end this call.",
       false) ∧
    ConversationEngine.process_state_transition
        { d with silence_prompts := 2 } none q =
      ({ d with state := ConversationState.END, silence_prompts := 3 },
       ConversationState.END, "Thank you for calling. Have a great day!",
       true) := by
  obtain ⟨st, tc, cc, sp, lui⟩ := d
  obtain rfl : st = ConversationState.LISTENING := h1
  obtain rfl : sp = 0 := h2
  exact ⟨rfl, rfl, rfl⟩

/-- C7 witness: the three calls at a concrete LISTENING row with
`silence_prompts = 0`. -/
theorem silent_caller_three_calls_witness :
    ConversationEngine.process_state_transition
        { state := ConversationState.LISTENING, turn_count := 0,
          clarification_count := 0, silence_prompts := 0, last_user_input := "" }
        none InputQuality.CLEAR =
      ({ state := ConversationState.LISTENING, turn_count := 0,
         clarification_count := 0, silence_prompts := 1, last_user_input := "" },
       ConversationState.LISTENING,
       "I'm still here. Please tell me how I can help you.", false) ∧
    ConversationEngine.process_state_transition
        { state := ConversationState.LISTENING, turn_count := 0,
          clarification_count := 0, silence_prompts := 1, last_user_input := "" }
        none InputQuality.CLEAR =
      ({ state := ConversationState.LISTENING, turn_count := 0,
         clarification_count := 0, silence_prompts := 2, last_user_input := "" },
       ConversationState.LISTENING,
       "I didn't hear anything. If you need assistance, please speak now or I'll end this call.",
       false) ∧
    ConversationEngine.process_state_transition
        { state := ConversationState.LISTENING, turn_count := 0,
          clarification_count := 0, silence_prompts := 2, last_user_input := "" }
        none InputQuality.CLEAR =
      ({ state := ConversationState.END, turn_count := 0,
         clarification_count := 0, silence_prompts := 3, last_user_input := "" },
       ConversationState.END, "Thank you for calling. Have a great day!",
       true) :=
  silent_caller_three_calls
    { state := ConversationState.LISTENING, turn_count := 0,
      clarification_count := 0, silence_prompts := 0, last_user_input := "" }
    InputQuality.CLEAR rfl rfl

/-- C8 counterexample: with default thresholds `comfort_wait_chunks = 8`,
but a WAITING_INCOMPLETE engine fed 8 silent chunks (continuous silence
reaching the comfort window) never emits COMFORT — the CONTINUATION_CUE at 2
chunks resets the engine to IDLE first. -/
theorem comfort_unreachable_counterexample :
    mkEngine.comfort_wait_chunks = 8 ∧
    (runEngineEvents (turn_end_incomplete mkEngine)
        (List.replicate 8 silentChunk)).2.length = 8 ∧
    ∀ ev ∈ (runEngineEvents (turn_end_incomplete mkEngine)
        (List.replicate 8 silentChunk)).2,
      ∀ t : TurnEvent, ev = some t → t.type ≠ TurnEventType.COMFORT :=
  ⟨mkEngine_default_comfort,
   runEngineEvents_length _ _,
   waiting_silent_no_comfort 6⟩

/-- C8 (amended): in WAITING_INCOMPLETE with the default thresholds,
receiving only silent chunks emits CONTINUATION_CUE when continuous silence
reaches `incomplete_wait_chunks` (the second chunk) and then resets the
engine to IDLE; COMFORT is never emitted on such a run, because
`incomplete_wait_chunks < comfort_wait_chunks` means the continuation cue
fires and resets the engine first. -/
theorem waiting_incomplete_silent_run (n : ℕ) (hn : 2 ≤ n) :
    ∃ rest,
      (runEngineEvents (turn_end_incomplete mkEngine)
          (List.replicate n silentChunk)).2 =
        none ::
          some { type := TurnEventType.CONTINUATION_CUE, buffer := none } ::
            rest ∧
      ∀ ev ∈ (runEngineEvents (turn_end_incomplete mkEngine)
          (List.replicate n silentChunk)).2,
        ∀ t : TurnEvent, ev = some t → t.type ≠ TurnEventType.COMFORT := by
  obtain ⟨m, rfl⟩ : ∃ m, n = m + 2 := ⟨n - 2, by omega⟩
  refine ⟨(runEngineEvents (reset (turn_end_incomplete mkEngine))
      (List.replicate m silentChunk)).2, ?_, waiting_silent_no_comfort m⟩
  rw [waiting_silent_two_steps m]

/-- C8 witness: the amended claim at the concrete run of 8 silent chunks. -/
theorem waiting_incomplete_silent_run_witness :
    ∃ rest,
      (runEngineEvents (turn_end_incomplete mkEngine)
          (List.replicate 8 silentChunk)).2 =
        none ::
          some { type := TurnEventType.CONTINUATION_CUE, buffer := none } ::
            rest ∧
      ∀ ev ∈ (runEngineEvents (turn_end_incomplete mkEngine)
          (List.replicate 8 silentChunk)).2,
        ∀ t : TurnEvent, ev = some t → t.type ≠ TurnEventType.COMFORT :=
  waiting_incomplete_silent_run 8 (by omega)

/-- C9: `finalize_turn` is idempotent — applying it twice equals applying it
once — and it leaves the engine IDLE with an empty buffer and all counters
zero. -/
theorem finalize_turn_idempotent (e : TurnTakingEngine) :
    finalize_turn (finalize_turn e) = finalize_turn e ∧
    (finalize_turn e).state = TurnState.IDLE ∧
    (finalize_turn e).buffer = [] ∧
    (finalize_turn e).speech_chunks = 0 ∧
    (finalize_turn e).silence_chunks = 0 ∧
    (finalize_turn e).idle_silence_chunks = 0 ∧
    (finalize_turn e).consecutive_speech_frames = 0 :=
  ⟨rfl, rfl, rfl, rfl, rfl, rfl, rfl⟩

/-- C10: after a TURN_END emission the engine stays in CANDIDATE_END with the
emitted buffer and a saturated confirmation window, so every further chunk
classified as silence emits another TURN_END whose buffer strictly extends
the previous one. -/
theorem turn_end_repeats (e : TurnTakingEngine) (c : List ℕ) (ev : TurnEvent)
    (h : (process_chunk e c).2 = some ev)
    (ht : ev.type = TurnEventType.TURN_END) :
    (process_chunk e c).1.state = TurnState.CANDIDATE_END ∧
    ev.buffer = some (process_chunk e c).1.buffer ∧
    ∀ c' : List ℕ, FRAME_BYTES ≤ c'.length →
      has_voice_uncertain c' = some false →
      (process_chunk (process_chunk e c).1 c').2 =
        some { type := TurnEventType.TURN_END,
               buffer := some ((process_chunk e c).1.buffer ++ c') } ∧
      (process_chunk (process_chunk e c).1 c').1.state =
        TurnState.CANDIDATE_END ∧
      (process_chunk (process_chunk e c).1 c').1.buffer =
        (process_chunk e c).1.buffer ++ c' ∧
      (process_chunk e c).1.buffer ++ c' ≠ (process_chunk e c).1.buffer := by
  obtain ⟨hlen, hv, hstate, hcond, hev, hpost⟩ := turn_end_emission e c ev h ht
  have hEstate : (process_chunk e c).1.state = TurnState.CANDIDATE_END := by
    rw [hpost]
    exact hstate
  have hEconf : (process_chunk e c).1.confirmation_chunks ≤
      (process_chunk e c).1.silence_chunks := by
    rw [hpost]
    exact hcond
  refine ⟨hEstate, ?_, ?_⟩
  · rw [hev, hpost]
  · intro c' hlen' hv'
    rw [process_chunk_silence_CANDIDATE _ c' hEstate hlen' hv',
      if_pos (le_trans hEconf (Nat.le_succ _))]
    refine ⟨rfl, hEstate, rfl, ?_⟩
    intro heq
    have hlength := congrArg List.length heq
    rw [List.length_append] at hlength
    rw [FRAME_BYTES_eq] at hlen'
    omega

/-- C10 witness: after the TURN_END emitted past `demoTrace`, the engine is
still in CANDIDATE_END and one more silent chunk emits another TURN_END with
the extended buffer. -/
theorem turn_end_repeats_witness :
    (process_chunk (runEngine mkEngine demoTrace) silentChunk).1.state =
      TurnState.CANDIDATE_END ∧
    (process_chunk
        (process_chunk (runEngine mkEngine demoTrace) silentChunk).1
        silentChunk).2 =
      some { type := TurnEventType.TURN_END,
             buffer := some
               ((process_chunk (runEngine mkEngine demoTrace) silentChunk).1.buffer
                 ++ silentChunk) } :=
  ⟨(turn_end_repeats _ silentChunk demoEvent demo_emission rfl).1,
   ((turn_end_repeats _ silentChunk demoEvent demo_emission rfl).2.2
      silentChunk silentChunk_length hv_silentChunk).1⟩

end VoiceChat
